import Mathlib

/-!
Shallow embedding of the job-leasing layer of LinkMe
(`src/internal/repository/dao/sql_job.go`) and of the like-toggle of the
interactive service (`src/unnamed/part_000`), together with theorems that
settle the specification claims against these embeddings.

The database is modelled as a `List Job` of rows; every GORM write of the
DAO is a row transformer mapped over the list, with `RowsAffected` the
count of rows matching the `WHERE` clause.  Times and identifiers are
`Int` (Go `int64` Unix milliseconds), statuses and versions are `Int`
(Go `int`).
-/

namespace LinkMe

/-- Job status constants from `sql_job.go` (`iota`): Waiting = 0. -/
def jobStatusWaiting : Int := 0

/-- Job status constant: Running = 1. -/
def jobStatusRunning : Int := 1

/-- Job status constant: Paused = 2. -/
def jobStatusPaused : Int := 2

/-- The `Job` row of `sql_job.go`.  Field names follow the Go struct;
`nextTime`, `createTime`, `updatedTime` are the `next_time`, `created_at`,
`updated_at` columns (Unix-millisecond timestamps). -/
structure Job where
  id : Int
  name : String
  executor : String
  expression : String
  cfg : String
  status : Int
  version : Int
  nextTime : Int
  createTime : Int
  updatedTime : Int
deriving Repr, DecidableEq

/-- The `WHERE status = ? AND next_time < ?` predicate of the candidate
query in `Preempt`: the row is a due candidate at time `now` iff its
status is Waiting and its `next_time` is strictly below `now`. -/
def dueMatch (now : Int) (j : Job) : Bool :=
  j.status == jobStatusWaiting && j.nextTime < now

/-- The candidate query of `Preempt`:
`db.Where("status = ? AND next_time < ?", jobStatusWaiting, now).First(&j)`.
GORM `First` orders by the primary key, so among the rows matching the
predicate the one with the smallest `id` is returned; `none` models
`gorm.ErrRecordNotFound`. -/
def findDueCandidate (now : Int) (db : List Job) : Option Job :=
  (db.filter (dueMatch now)).argmin Job.id

/-- Row-level effect of the conditional claim update in `Preempt`:
`Where("id = ? AND version = ?", id, ver).Updates({status: Running,
version: ver+1, updated_at: now})`.  A row is touched only when both the
id and the version match; the new version is the read version plus one,
exactly as the Go map writes `j.Version + 1`. -/
def casClaimRow (id ver now : Int) (j : Job) : Job :=
  if j.id == id && j.version == ver then
    { j with status := jobStatusRunning, version := ver + 1, updatedTime := now }
  else j

/-- Database-level claim update of `Preempt`: the mapped rows together
with `RowsAffected`, the number of rows matching the `WHERE` clause. -/
def casClaim (id ver now : Int) (db : List Job) : List Job × Nat :=
  (db.map (casClaimRow id ver now),
   db.countP (fun j => j.id == id && j.version == ver))

/-- Row-level effect of `Release`:
`Where("id = ?", jobId).Updates({status: Waiting, updated_at: now})`.
The `WHERE` clause carries no version condition and the update writes
neither `version` nor `next_time`. -/
def releaseRow (now jobId : Int) (j : Job) : Job :=
  if j.id == jobId then
    { j with status := jobStatusWaiting, updatedTime := now }
  else j

/-- Database-level `Release`. -/
def releaseUpd (now jobId : Int) (db : List Job) : List Job :=
  db.map (releaseRow now jobId)

/-- Row-level effect of `UpdateTime` (the heartbeat refresh):
`Where("id = ?", id).Updates({updated_at: now})`.  Keyed on the id only;
no version condition, no version increment. -/
def updateTimeRow (now id : Int) (j : Job) : Job :=
  if j.id == id then { j with updatedTime := now } else j

/-- Database-level `UpdateTime`. -/
def updateTimeUpd (now id : Int) (db : List Job) : List Job :=
  db.map (updateTimeRow now id)

/-- Row-level effect of `UpdateNextTime`:
`Where("id = ?", id).Updates({updated_at: now, next_time: t})`.  Keyed on
the id only; writes neither `status` nor `version`. -/
def updateNextTimeRow (now id t : Int) (j : Job) : Job :=
  if j.id == id then { j with updatedTime := now, nextTime := t } else j

/-- Database-level `UpdateNextTime`. -/
def updateNextTimeUpd (now id t : Int) (db : List Job) : List Job :=
  db.map (updateNextTimeRow now id t)

/-- The `RowsAffected` of any of the id-keyed updates (`Release`,
`UpdateTime`, `UpdateNextTime`): the number of rows whose id matches. -/
def affectedById (id : Int) (db : List Job) : Nat :=
  db.countP (fun j => j.id == id)

/-- Outcome of one run of `Preempt`: either the claimed job (the code
returns the candidate `j` exactly as it was read) or the error from the
candidate query (`gorm.ErrRecordNotFound` when no row matches). -/
inductive PreemptOut where
  | ok (j : Job)
  | notFoundErr
deriving Repr, DecidableEq

/-- One iteration of the `for` loop in `Preempt`.  `dbR` is the snapshot
the candidate query reads; `dbW` the snapshot the conditional update
hits (another worker may have written in between).  `Sum.inr ()` is the
`continue` branch taken when `RowsAffected == 0`; `Sum.inl` is a
`return`. -/
def preemptIter (now : Int) (dbR dbW : List Job) : PreemptOut ⊕ Unit :=
  match findDueCandidate now dbR with
  | none => Sum.inl PreemptOut.notFoundErr
  | some j =>
    if (casClaim j.id j.version now dbW).2 = 0 then Sum.inr ()
    else Sum.inl (PreemptOut.ok j)

/-- The unbounded `for` loop of `Preempt`, iterated against a schedule of
per-iteration snapshots (`envR k`, `envW k` are the read and write
snapshots of iteration `k`, `nowAt k` its `time.Now().UnixMilli()`).
`fuel` counts iterations observed; `none` means the loop is still
running after `fuel` iterations — the Go loop itself has no bound. -/
def preemptLoop (nowAt : Nat → Int) (envR envW : Nat → List Job) :
    Nat → Nat → Option PreemptOut
  | _, 0 => none
  | k, fuel + 1 =>
    match preemptIter (nowAt k) (envR k) (envW k) with
    | Sum.inl r => some r
    | Sum.inr () => preemptLoop nowAt envR envW (k + 1) fuel

/-- Sequentialization of concurrent claim attempts on one row: each
attempt carries the version it read and performs the row-level effect of
the conditional claim update of `Preempt` on that row.  Returns the
final row together with each attempt's success flag
(`RowsAffected == 1`). -/
def runAttempts (now : Int) : Job → List Int → Job × List Bool
  | j, [] => (j, [])
  | j, v :: vs =>
    let p := runAttempts now (casClaimRow j.id v now j) vs
    (p.1, (j.version == v) :: p.2)

/-- Modelled from the spec: `reclaimStale(now, leaseTimeout)` has no
implementation in the source (§9 lists stale-lease reclamation as
missing); per §4.3 it scans rows with `status = Running` and
`updated_at < now - leaseTimeout` and attempts
`conditionalUpdate(id, version, {status: Waiting})` on each, where per
§4.1 `conditionalUpdate` also writes `version = version + 1` and
`updated_at = now`.  Row-level effect of one reclaim scan (the scan
reads each row's current version, so its own conditional update sees a
matching version). -/
def reclaimRow (now leaseTimeout : Int) (j : Job) : Job :=
  if j.status == jobStatusRunning && j.updatedTime < now - leaseTimeout then
    { j with status := jobStatusWaiting, version := j.version + 1, updatedTime := now }
  else j

/-- Modelled from the spec: database-level `reclaimStale(now, leaseTimeout)
-> count`, the per-row reclaim mapped over the store plus the number of
rows reclaimed. -/
def reclaimStale (now leaseTimeout : Int) (db : List Job) : List Job × Nat :=
  (db.map (reclaimRow now leaseTimeout),
   db.countP (fun j => j.status == jobStatusRunning && j.updatedTime < now - leaseTimeout))

/-- State of one `(biz, id, uid)` interaction as the like-toggle sees
it: whether the user's like is recorded, and the like counter. -/
structure LikeState where
  liked : Bool
  likeCnt : Int
deriving Repr, DecidableEq

/-- Effect of `repo.IncrLike`: records the like and increments the
counter. -/
def incrLike (s : LikeState) : LikeState :=
  { liked := true, likeCnt := s.likeCnt + 1 }

/-- Effect of `repo.DecrLike`: removes the like and decrements the
counter. -/
def decrLike (s : LikeState) : LikeState :=
  { liked := false, likeCnt := s.likeCnt - 1 }

/-- The Go multiple-return view of the fallible `repo.Liked` lookup: on
success the boolean result with no error, on failure the zero value
`false` together with the error — this is the pair the statement
`liked, _ := i.repo.Liked(ctx, biz, id, uid)` destructures. -/
def goLiked (r : Except String Bool) : Bool × Option String :=
  match r with
  | Except.ok b => (b, none)
  | Except.error e => (false, some e)

/-- Which repository call `interactiveService.Like` makes. -/
inductive LikeAction where
  | incr
  | decr
deriving Repr, DecidableEq

/-- The branch of `interactiveService.Like` (`src/unnamed/part_000`):
the error of the `Liked` lookup is discarded (`liked, _ := ...`) and the
branch depends only on the boolean. -/
def likeAction (r : Except String Bool) : LikeAction :=
  if (goLiked r).1 then LikeAction.decr else LikeAction.incr

/-- The whole of `interactiveService.Like` as a state transformer: dispatches to
`DecrLike` or `IncrLike` according to `likeAction`, and the error it
returns is the one of that repository call (modelled as succeeding),
never the discarded lookup error. -/
def like (r : Except String Bool) (s : LikeState) : LikeState × Option String :=
  match likeAction r with
  | LikeAction.decr => (decrLike s, none)
  | LikeAction.incr => (incrLike s, none)

/-! Concrete rows used by witnesses and counterexamples. -/

/-- A due Waiting job: id 1, version 5, due at 0. -/
def jDue : Job := ⟨1, "", "", "", "", jobStatusWaiting, 5, 0, 0, 0⟩

/-- A Waiting job with id 1 due at 100. -/
def jA : Job := ⟨1, "", "", "", "", jobStatusWaiting, 0, 100, 0, 0⟩

/-- A Waiting job with id 2 due at 50 — earlier due time, larger id than `jA`. -/
def jB : Job := ⟨2, "", "", "", "", jobStatusWaiting, 0, 50, 0, 0⟩

/-- A Waiting job whose `next_time` is exactly 300. -/
def jC : Job := ⟨3, "", "", "", "", jobStatusWaiting, 0, 300, 0, 0⟩

/-- A Running job, id 1, version 6, due time 100, heartbeat at 10. -/
def jRun : Job := ⟨1, "", "", "", "", jobStatusRunning, 6, 100, 0, 10⟩

/-- A row after a reclaim: Waiting, version already advanced to 6. -/
def jReclaimed : Job := ⟨1, "", "", "", "", jobStatusWaiting, 6, 100, 0, 40⟩

/-! Claim C9. -/

/-- C9: a Waiting job is not claimable at the instant `now = next_time`
(the candidate query finds nothing), and it matches the candidate
predicate exactly for `now` strictly greater than `next_time`. -/
theorem boundary_exclusive (j : Job) (h : j.status = jobStatusWaiting) :
    dueMatch j.nextTime j = false ∧
    findDueCandidate j.nextTime [j] = none ∧
    ∀ now : Int, dueMatch now j = true ↔ j.nextTime < now := by
  refine ⟨by simp [dueMatch, h], ?_, fun now => by simp [dueMatch, h]⟩
  simp [findDueCandidate, dueMatch, h]

/-- Witness for C9 at the concrete job `jA` (`next_time = 100`). -/
theorem boundary_exclusive_witness :
    dueMatch jA.nextTime jA = false ∧
    findDueCandidate jA.nextTime [jA] = none ∧
    ∀ now : Int, dueMatch now jA = true ↔ jA.nextTime < now :=
  boundary_exclusive jA rfl

/-! Claim C8. -/

/-- C8, counterexample: at `now = 200` over `[jA, jB]` the candidate
query returns `jA` (the smallest id) although `jB` is also due with the
strictly smaller `next_time`, so selection is not ordered by
`next_due_at` ascending; and at `now = 300` the row `jC` with
`next_time = 300 ≤ now` is not returned at all (the query is strict). -/
theorem candidate_order_counterexample :
    findDueCandidate 200 [jA, jB] = some jA ∧
    jB.status = jobStatusWaiting ∧ jB.nextTime ≤ 200 ∧ jB.nextTime < jA.nextTime ∧
    findDueCandidate 300 [jC] = none ∧
    jC.status = jobStatusWaiting ∧ jC.nextTime ≤ 300 := by
  refine ⟨?_, rfl, by decide, by decide, ?_, rfl, by decide⟩ <;> decide

/-- C8 amended: candidate selection returns a row with
`status = Waiting` and `next_time < now` (strictly), and among all such
rows the one with the minimal `id` (GORM `First` orders by primary key);
it reports not-found exactly when no row is both Waiting and strictly
past due. -/
theorem candidate_selection_spec (now : Int) (db : List Job) :
    (∀ j, findDueCandidate now db = some j →
      j ∈ db ∧ j.status = jobStatusWaiting ∧ j.nextTime < now ∧
      ∀ j2 ∈ db, j2.status = jobStatusWaiting → j2.nextTime < now → j.id ≤ j2.id) ∧
    (findDueCandidate now db = none ↔
      ∀ j ∈ db, j.status = jobStatusWaiting → ¬(j.nextTime < now)) := by
  constructor
  · intro j hj
    have hmem : j ∈ (db.filter (dueMatch now)).argmin Job.id := by
      simpa [Option.mem_def, findDueCandidate] using hj
    have hfil : j ∈ db.filter (dueMatch now) := List.argmin_mem hmem
    have hdb : j ∈ db := List.mem_of_mem_filter hfil
    have hdm : dueMatch now j = true := List.of_mem_filter hfil
    have hdm2 : j.status = jobStatusWaiting ∧ j.nextTime < now := by
      simpa [dueMatch] using hdm
    refine ⟨hdb, hdm2.1, hdm2.2, ?_⟩
    intro j2 hj2 hs hlt
    have hj2f : j2 ∈ db.filter (dueMatch now) :=
      List.mem_filter.mpr ⟨hj2, by simp [dueMatch, hs, hlt]⟩
    exact List.le_of_mem_argmin hj2f hmem
  · rw [findDueCandidate, List.argmin_eq_none, List.filter_eq_nil_iff]
    constructor
    · intro h j hj hs
      have := h j hj
      simp [dueMatch, hs] at this
      exact not_lt.mpr this
    · intro h j hj
      simp [dueMatch]
      intro hs
      exact not_lt.mp (h j hj hs)

/-- Witness for C8's amended theorem at `now = 200`, `db = [jA, jB]`. -/
theorem candidate_selection_spec_witness :
    jA ∈ [jA, jB] ∧ jA.status = jobStatusWaiting ∧ jA.nextTime < 200 ∧
    ∀ j2 ∈ [jA, jB], j2.status = jobStatusWaiting → j2.nextTime < 200 → jA.id ≤ j2.id :=
  (candidate_selection_spec 200 [jA, jB]).1 jA (by decide)

/-! Claim C1. -/

/-- An attempt list none of whose read versions matches the row's
current version leaves the row unchanged and every attempt fails
(`RowsAffected == 0`). -/
lemma runAttempts_all_miss (now : Int) (j : Job) (vs : List Int)
    (h : ∀ v ∈ vs, v ≠ j.version) :
    runAttempts now j vs = (j, List.replicate vs.length false) := by
  induction vs with
  | nil => rfl
  | cons v vs ih =>
    have hv : v ≠ j.version := h v (List.mem_cons_self v vs)
    have hne : (j.version == v) = false := by
      simp [hv.symm]
    have hrow : casClaimRow j.id v now j = j := by
      simp [casClaimRow, hne]
    have htail := ih (fun w hw => h w (List.mem_cons_of_mem v hw))
    simp [runAttempts, hrow, htail, hne, List.replicate_succ]

/-- C1: among any N ≥ 2 sequentialized claim attempts that all carry the
same read version — the row's current version — exactly one conditional
update succeeds, and the resulting row has the read version plus one and
status Running; no interleaving produces two owners. -/
theorem preempt_mutual_exclusion (now : Int) (j : Job) (vs : List Int)
    (hall : ∀ v ∈ vs, v = j.version) (hlen : 2 ≤ vs.length) :
    (runAttempts now j vs).2.count true = 1 ∧
    (runAttempts now j vs).1.version = j.version + 1 ∧
    (runAttempts now j vs).1.status = jobStatusRunning := by
  cases vs with
  | nil => simp at hlen
  | cons v vs =>
    have hv : v = j.version := hall v (List.mem_cons_self v vs)
    rw [hv]
    have hrow : casClaimRow j.id j.version now j =
        { j with status := jobStatusRunning, version := j.version + 1, updatedTime := now } := by
      simp [casClaimRow]
    have hmiss : ∀ w ∈ vs, w ≠
        ({ j with status := jobStatusRunning, version := j.version + 1, updatedTime := now } : Job).version := by
      intro w hw
      have hw2 : w = j.version := hall w (List.mem_cons_of_mem v hw)
      rw [hw2]
      show j.version ≠ j.version + 1
      omega
    have htail := runAttempts_all_miss now
      { j with status := jobStatusRunning, version := j.version + 1, updatedTime := now } vs hmiss
    simp [runAttempts, hrow, htail, List.count_replicate]

/-- Witness for C1: three attempts that all read version 5 on `jDue`. -/
theorem preempt_mutual_exclusion_witness :
    (runAttempts 10 jDue [5, 5, 5]).2.count true = 1 ∧
    (runAttempts 10 jDue [5, 5, 5]).1.version = jDue.version + 1 ∧
    (runAttempts 10 jDue [5, 5, 5]).1.status = jobStatusRunning :=
  preempt_mutual_exclusion 10 jDue [5, 5, 5] (by decide) (by decide)

/-! Claim C3. -/

/-- A single due Waiting row with the given version (id 1, due at 0). -/
def advJob (v : Int) : Job := ⟨1, "", "", "", "", jobStatusWaiting, v, 0, 0, 0⟩

/-- Read snapshot of the adversarial schedule at iteration `k`: the row
is Waiting at version `k`. -/
def advR (k : Nat) : List Job := [advJob k]

/-- Write snapshot of the adversarial schedule at iteration `k`: between
the read and the update another worker claimed the row, bumping its
version to `k + 1`, so this iteration's conditional update misses. -/
def advW (k : Nat) : List Job := [advJob (k + 1)]

/-- Under the adversarial schedule every iteration takes the `continue`
branch, so the loop never returns, whatever the fuel. -/
lemma preemptLoop_adv_none : ∀ fuel k,
    preemptLoop (fun _ => 1) advR advW k fuel = none := by
  intro fuel
  induction fuel with
  | zero => intro k; rfl
  | succ n ih =>
    intro k
    have hfind : findDueCandidate 1 (advR k) = some (advJob k) := by
      simp [advR, findDueCandidate, dueMatch, advJob, jobStatusWaiting]
    have hcas : (casClaim (advJob (k : Int)).id (advJob (k : Int)).version 1 (advW k)).2 = 0 := by
      have hne : (((k : Int) + 1) == (k : Int)) = false := by
        simp
      simp [casClaim, advW, advJob, hne]
    have hiter : preemptIter 1 (advR k) (advW k) = Sum.inr () := by
      simp [preemptIter, hfind, hcas]
    simp [preemptLoop, hiter, ih]

/-- C3, counterexample: `Preempt` has no retry bound — under the
schedule in which another worker wins the race on every iteration while
a due candidate is always visible, the loop runs forever: no amount of
fuel makes it return, in particular it never returns a `Contention`
result (no such result exists in the code). -/
theorem preempt_no_bound_counterexample :
    ¬ ∃ fuel r, preemptLoop (fun _ => 1) advR advW 0 fuel = some r := by
  rintro ⟨fuel, r, h⟩
  rw [preemptLoop_adv_none fuel 0] at h
  exact Option.noConfusion h

/-- C3 amended: the retry loop of `Preempt` is unbounded — a failed
conditional update always leads to another full iteration, with no
attempt counter and no `Contention` result; the loop returns only when
the candidate query finds no row or the conditional update wins. -/
theorem preempt_retry_unbounded (now : Int) (dbR dbW : List Job) :
    (findDueCandidate now dbR = none →
      preemptIter now dbR dbW = Sum.inl PreemptOut.notFoundErr) ∧
    (∀ j, findDueCandidate now dbR = some j →
      (casClaim j.id j.version now dbW).2 = 0 → preemptIter now dbR dbW = Sum.inr ()) ∧
    (∀ j, findDueCandidate now dbR = some j →
      (casClaim j.id j.version now dbW).2 ≠ 0 →
      preemptIter now dbR dbW = Sum.inl (PreemptOut.ok j)) ∧
    (∀ nowAt envR envW k fuel, preemptIter (nowAt k) (envR k) (envW k) = Sum.inr () →
      preemptLoop nowAt envR envW k (fuel + 1) = preemptLoop nowAt envR envW (k + 1) fuel) := by
  refine ⟨fun h => by simp [preemptIter, h], fun j hj hc => by simp [preemptIter, hj, hc],
    fun j hj hc => by simp [preemptIter, hj, hc], fun nowAt envR envW k fuel hi => by
      simp [preemptLoop, hi]⟩

/-- Witness for C3's amended theorem: over the empty store the candidate
query finds nothing and the iteration returns the not-found error. -/
theorem preempt_retry_unbounded_witness :
    preemptIter 1 [] [] = Sum.inl PreemptOut.notFoundErr :=
  (preempt_retry_unbounded 1 [] []).1 rfl

/-! Claim C7. -/

/-- C7, counterexample: at `now = 1` over the store `[jDue]` the claim
update wins, yet `Preempt` returns the candidate exactly as it was read
— status Waiting and version 5 — while the store now holds the row with
status Running and version 6; the returned value does not carry the
updated state. -/
theorem preempt_return_stale_counterexample :
    preemptIter 1 [jDue] [jDue] = Sum.inl (PreemptOut.ok jDue) ∧
    jDue.status = jobStatusWaiting ∧ jDue.version = 5 ∧
    (casClaim jDue.id jDue.version 1 [jDue]).1 =
      [{ jDue with status := jobStatusRunning, version := 6, updatedTime := 1 }] ∧
    ¬(jDue.status = jobStatusRunning ∧ jDue.version = 5 + 1) := by
  exact ⟨by decide, rfl, rfl, by decide, by decide⟩

/-- C7 amended: when the conditional update of `Preempt` wins, the value
returned to the caller is the candidate row as read — still
status Waiting and the pre-increment version — while every store row
matching the `(id, version)` pair was rewritten to status Running with
the version incremented and `updated_at = now`. -/
theorem preempt_returns_read_row (now : Int) (dbR dbW : List Job) (j : Job)
    (hfind : findDueCandidate now dbR = some j)
    (hcas : (casClaim j.id j.version now dbW).2 ≠ 0) :
    preemptIter now dbR dbW = Sum.inl (PreemptOut.ok j) ∧
    j.status = jobStatusWaiting ∧
    ∀ j2 ∈ dbW, j2.id = j.id → j2.version = j.version →
      casClaimRow j.id j.version now j2 =
        { j2 with status := jobStatusRunning, version := j.version + 1, updatedTime := now } := by
  refine ⟨by simp [preemptIter, hfind, hcas], ?_, ?_⟩
  · exact (((candidate_selection_spec now dbR).1 j hfind).2).1
  · intro j2 _ hid hver
    simp [casClaimRow, hid, hver]

/-- Witness for C7's amended theorem at `now = 1`, store `[jDue]`. -/
theorem preempt_returns_read_row_witness :
    preemptIter 1 [jDue] [jDue] = Sum.inl (PreemptOut.ok jDue) ∧
    jDue.status = jobStatusWaiting ∧
    ∀ j2 ∈ [jDue], j2.id = jDue.id → j2.version = jDue.version →
      casClaimRow jDue.id jDue.version 1 j2 =
        { j2 with status := jobStatusRunning, version := jDue.version + 1, updatedTime := 1 } :=
  preempt_returns_read_row 1 [jDue] [jDue] jDue (by decide) (by decide)

/-! Claim C4. -/

/-- C4, counterexample: applying `Release` at `now = 50` to the Running
row `jRun` (version 6, `next_time` 100) yields the intermediate state
the claim says is unreachable — status already Waiting while `next_time`
is still the old value — and the version is not incremented (`Release`
carries no version at all). -/
theorem release_two_writes_counterexample :
    releaseRow 50 1 jRun = { jRun with status := jobStatusWaiting, updatedTime := 50 } ∧
    (releaseRow 50 1 jRun).status = jobStatusWaiting ∧
    (releaseRow 50 1 jRun).nextTime = jRun.nextTime ∧
    (releaseRow 50 1 jRun).version = jRun.version ∧
    ¬((releaseRow 50 1 jRun).version = jRun.version + 1) := by
  exact ⟨by decide, by decide, by decide, by decide, by decide⟩

/-- C4 amended: `Release` writes only `status = Waiting` and
`updated_at`, keyed on the id with no version condition and no version
increment; the next due time is written by the separate `UpdateNextTime`
call (which writes `next_time` and `updated_at` only), so after the
first write and before the second the row has its new status but its old
`next_time`. -/
theorem release_separate_writes (now t jobId : Int) (j : Job) (h : j.id = jobId) :
    releaseRow now jobId j = { j with status := jobStatusWaiting, updatedTime := now } ∧
    (releaseRow now jobId j).nextTime = j.nextTime ∧
    (releaseRow now jobId j).version = j.version ∧
    updateNextTimeRow now jobId t j = { j with updatedTime := now, nextTime := t } ∧
    (updateNextTimeRow now jobId t j).status = j.status ∧
    (updateNextTimeRow now jobId t j).version = j.version := by
  simp [releaseRow, updateNextTimeRow, h]

/-- Witness for C4's amended theorem at `jRun`, `now = 50`, `t = 200`. -/
theorem release_separate_writes_witness :
    releaseRow 50 1 jRun = { jRun with status := jobStatusWaiting, updatedTime := 50 } ∧
    (releaseRow 50 1 jRun).nextTime = jRun.nextTime ∧
    (releaseRow 50 1 jRun).version = jRun.version ∧
    updateNextTimeRow 50 1 200 jRun = { jRun with updatedTime := 50, nextTime := 200 } ∧
    (updateNextTimeRow 50 1 200 jRun).status = jRun.status ∧
    (updateNextTimeRow 50 1 200 jRun).version = jRun.version :=
  release_separate_writes 50 200 1 jRun rfl

/-! Claim C5. -/

/-- C5, counterexample: the heartbeat write `UpdateTime` at `now = 99`
mutates `updated_at` of the Running row `jRun` without incrementing its
version, and it affects the row although it carries no expected version
to match — so not every lease-transition write increments the version,
and these writes are not version-guarded. -/
theorem version_not_incremented_counterexample :
    updateTimeRow 99 1 jRun = { jRun with updatedTime := 99 } ∧
    (updateTimeRow 99 1 jRun).updatedTime = 99 ∧
    (updateTimeRow 99 1 jRun).version = jRun.version ∧
    ¬((updateTimeRow 99 1 jRun).version = jRun.version + 1) ∧
    affectedById 1 [jRun] = 1 := by
  exact ⟨by decide, by decide, by decide, by decide, by decide⟩

/-- C5 amended: only the claim update of `Preempt` is version-guarded
and version-incrementing.  `Release`, `UpdateTime` and `UpdateNextTime`
never change the version and, keyed on the id alone, mutate the row
whatever its stored version; whenever the claim update does touch a row,
the row's version matched the expected one and is incremented by one. -/
theorem only_claim_cas_versions (now t id : Int) (j : Job) :
    (releaseRow now id j).version = j.version ∧
    (updateTimeRow now id j).version = j.version ∧
    (updateNextTimeRow now id t j).version = j.version ∧
    (j.id = id → (updateTimeRow now id j).updatedTime = now) ∧
    (j.id = id → (releaseRow now id j).status = jobStatusWaiting) ∧
    (j.id = id → (updateNextTimeRow now id t j).nextTime = t) ∧
    ∀ ver, casClaimRow id ver now j ≠ j →
      j.version = ver ∧ (casClaimRow id ver now j).version = ver + 1 := by
  refine ⟨?_, ?_, ?_, fun h => by simp [updateTimeRow, h],
    fun h => by simp [releaseRow, h], fun h => by simp [updateNextTimeRow, h], ?_⟩
  · by_cases h : j.id = id <;> simp [releaseRow, h]
  · by_cases h : j.id = id <;> simp [updateTimeRow, h]
  · by_cases h : j.id = id <;> simp [updateNextTimeRow, h]
  · intro ver hne
    by_cases hc : (j.id == id && j.version == ver) = true
    · have hv : j.version = ver := by
        have := hc
        simp at this
        exact this.2
      constructor
      · exact hv
      · simp [casClaimRow, hc]
    · exact absurd (by simp [casClaimRow, hc]) hne

/-- Witness for C5's amended theorem at `jRun`, `now = 99`, `t = 7`,
`id = 1`. -/
theorem only_claim_cas_versions_witness :
    (releaseRow 99 1 jRun).version = jRun.version ∧
    (updateTimeRow 99 1 jRun).version = jRun.version ∧
    (updateNextTimeRow 99 1 7 jRun).version = jRun.version ∧
    (jRun.id = 1 → (updateTimeRow 99 1 jRun).updatedTime = 99) ∧
    (jRun.id = 1 → (releaseRow 99 1 jRun).status = jobStatusWaiting) ∧
    (jRun.id = 1 → (updateNextTimeRow 99 1 7 jRun).nextTime = 7) ∧
    ∀ ver, casClaimRow 1 ver 99 jRun ≠ jRun →
      jRun.version = ver ∧ (casClaimRow 1 ver 99 jRun).version = ver + 1 :=
  only_claim_cas_versions 99 7 1 jRun

/-! Claim C6. -/

/-- C6, counterexample: the row `jReclaimed` has been reclaimed (stored
version 6, while the original owner last read version 5), yet the
owner's heartbeat `UpdateTime` at `now = 99` still mutates the row
(`updated_at` 40 becomes 99) and matches one row — there is no
`NotOwner` outcome and no version check in the code. -/
theorem heartbeat_mutates_counterexample :
    updateTimeRow 99 1 jReclaimed = { jReclaimed with updatedTime := 99 } ∧
    updateTimeRow 99 1 jReclaimed ≠ jReclaimed ∧
    (updateTimeRow 99 1 jReclaimed).updatedTime = 99 ∧
    affectedById 1 [jReclaimed] = 1 := by
  exact ⟨by decide, by decide, by decide, by decide⟩

/-- C6 amended: the heartbeat `UpdateTime` refreshes `updated_at` keyed
only on the id, with no version condition, so it cannot detect a
reclaimed lease: for any stored version the write touches the row with
the given id, mutates its `updated_at`, and reports one row affected. -/
theorem heartbeat_keyed_on_id_only (now id : Int) (j : Job) (h : j.id = id) :
    updateTimeRow now id j = { j with updatedTime := now } ∧
    (updateTimeRow now id j).version = j.version ∧
    affectedById id [j] = 1 := by
  refine ⟨by simp [updateTimeRow, h], by simp [updateTimeRow, h], ?_⟩
  simp [affectedById, h]

/-- Witness for C6's amended theorem at the reclaimed row. -/
theorem heartbeat_keyed_on_id_only_witness :
    updateTimeRow 99 1 jReclaimed = { jReclaimed with updatedTime := 99 } ∧
    (updateTimeRow 99 1 jReclaimed).version = jReclaimed.version ∧
    affectedById 1 [jReclaimed] = 1 :=
  heartbeat_keyed_on_id_only 99 1 jReclaimed rfl

/-! Claim C2. -/

/-- C2: a Running row whose `updated_at` age exceeds the lease timeout
is reclaimed by the spec-modelled `reclaimStale` to status Waiting with
its version incremented by exactly one and `updated_at = now`; a second
scan at the same time leaves the result unchanged (the reclaim happens
exactly once), and the reclaimed row again matches the claim predicate
at any later time past its due time.  Over a singleton store the scan
reports one reclaimed row. -/
theorem reclaim_stale_spec (now leaseTimeout : Int) (j : Job)
    (hrun : j.status = jobStatusRunning)
    (hstale : j.updatedTime < now - leaseTimeout) :
    reclaimRow now leaseTimeout j =
      { j with status := jobStatusWaiting, version := j.version + 1, updatedTime := now } ∧
    (reclaimRow now leaseTimeout j).version = j.version + 1 ∧
    reclaimRow now leaseTimeout (reclaimRow now leaseTimeout j) =
      reclaimRow now leaseTimeout j ∧
    (∀ now2 : Int, j.nextTime < now2 →
      dueMatch now2 (reclaimRow now leaseTimeout j) = true) ∧
    (reclaimStale now leaseTimeout [j]).2 = 1 := by
  have hrow : reclaimRow now leaseTimeout j =
      { j with status := jobStatusWaiting, version := j.version + 1, updatedTime := now } := by
    simp [reclaimRow, hrun, hstale]
  refine ⟨hrow, by simp [hrow], ?_, ?_, ?_⟩
  · rw [hrow]
    simp [reclaimRow, jobStatusWaiting, jobStatusRunning]
  · intro now2 h2
    rw [hrow]
    simp [dueMatch, h2]
  · simp [reclaimStale, hrun, hstale]

/-- Witness for C2 at `jRun` (Running, heartbeat at 10) with
`now = 100` and a lease timeout of 20: 10 < 100 − 20, so the row is
stale and reclaimed. -/
theorem reclaim_stale_spec_witness :
    reclaimRow 100 20 jRun =
      { jRun with status := jobStatusWaiting, version := jRun.version + 1, updatedTime := 100 } ∧
    (reclaimRow 100 20 jRun).version = jRun.version + 1 ∧
    reclaimRow 100 20 (reclaimRow 100 20 jRun) = reclaimRow 100 20 jRun ∧
    (∀ now2 : Int, jRun.nextTime < now2 → dueMatch now2 (reclaimRow 100 20 jRun) = true) ∧
    (reclaimStale 100 20 [jRun]).2 = 1 :=
  reclaim_stale_spec 100 20 jRun rfl (by decide)

/-! Claim C10. -/

/-- C10: `interactiveService.Like` is a toggle branching only on the
boolean of the `Liked` lookup, whose error is discarded: a lookup
reporting already-liked makes it decrement, a lookup reporting not-liked
or failing with any error makes it increment; in particular a failed
lookup on an item the user had already liked increments the counter a
second time and surfaces no error. -/
theorem like_toggle_discards_error :
    (∀ s, like (Except.ok true) s = (decrLike s, none)) ∧
    (∀ s, like (Except.ok false) s = (incrLike s, none)) ∧
    (∀ e s, like (Except.error e) s = (incrLike s, none)) ∧
    (∀ s : LikeState, s.liked = true → ∀ e,
      (like (Except.error e) s).1.likeCnt = s.likeCnt + 1 ∧
      (like (Except.error e) s).2 = none) := by
  refine ⟨fun s => rfl, fun s => rfl, fun e s => rfl, ?_⟩
  intro s _ e
  exact ⟨rfl, rfl⟩

/-- Witness for C10: a lookup failure on a state where the like was
already recorded (`liked = true`, counter 1) yields counter 2 and no
surfaced error — the second increment. -/
theorem like_toggle_discards_error_witness :
    (like (Except.error "lookup failed") ⟨true, 1⟩).1.likeCnt =
      (⟨true, 1⟩ : LikeState).likeCnt + 1 ∧
    (like (Except.error "lookup failed") ⟨true, 1⟩).2 = none :=
  like_toggle_discards_error.2.2.2 ⟨true, 1⟩ rfl "lookup failed"

end LinkMe
